import Mathlib

/-
Verification of the Bio.GO ontology and inference modules.

The definitions below are a shallow embedding of `Bio/GO/ontology.py` and
`Bio/GO/inference.py`.  Python classes for relationship types become the
inductive `RelType` together with the `isSubclass` relation mirroring the
class hierarchy; `GOTerm` becomes `Term` (tags are not needed by any claim
and are omitted; the `ontology` back-reference attribute is modelled by the
`owners` component of the ontology state); Python exceptions become the
`PyError` inductive and fallible operations return `Except PyError`.
-/

namespace GO

/-- The Python class hierarchy of GO relationships:
`GORelationship` (name "any"), `InheritableGORelationship` (name
"inheritable"), `IsARelationship`, `PartOfRelationship`,
`RegulatesRelationship`, `PositivelyRegulatesRelationship`,
`NegativelyRegulatesRelationship`. -/
inductive RelType where
  | anyRel
  | inheritable
  | isA
  | partOf
  | regulates
  | positivelyRegulates
  | negativelyRegulates
deriving DecidableEq, BEq, Repr

/-- The superclasses of each relationship class (the class itself included),
read off the `class X(Y)` declarations in `ontology.py`:
`IsARelationship < InheritableGORelationship < GORelationship`,
`PartOfRelationship < InheritableGORelationship`,
`PositivelyRegulatesRelationship < RegulatesRelationship < GORelationship`,
`NegativelyRegulatesRelationship < RegulatesRelationship`. -/
def superclasses : RelType → List RelType
  | .anyRel => [.anyRel]
  | .inheritable => [.inheritable, .anyRel]
  | .isA => [.isA, .inheritable, .anyRel]
  | .partOf => [.partOf, .inheritable, .anyRel]
  | .regulates => [.regulates, .anyRel]
  | .positivelyRegulates => [.positivelyRegulates, .regulates, .anyRel]
  | .negativelyRegulates => [.negativelyRegulates, .regulates, .anyRel]

/-- Python `isinstance(x, C)` / `issubclass(A, C)` for relationship classes. -/
def isSubclass (a b : RelType) : Bool :=
  (superclasses a).contains b

/-- `GOTerm`: only the fields the verified operations read.  `tags` is never
consulted by the code under verification and is omitted; the mutable
`ontology` attribute is tracked in the ontology state (`owners`). -/
structure Term where
  id : String
  name : String
  aliases : List String
deriving DecidableEq, BEq, Repr

/-- `GOTerm.__eq__`: two terms are equal iff their ids are equal. -/
def termEq (a b : Term) : Bool :=
  a.id == b.id

/-- A `GORelationship` instance: its (dynamic) class and the two terms. -/
structure Relationship where
  ty : RelType
  subjectTerm : Term
  objectTerm : Term
deriving DecidableEq, BEq, Repr

/-- `GORelationship.implies`: the two subject terms and the two object terms
must be equal (term equality, i.e. by id) and `self` must be an instance of
the class of `other`. -/
def Relationship.implies (self other : Relationship) : Bool :=
  termEq self.subjectTerm other.subjectTerm &&
  termEq self.objectTerm other.objectTerm &&
  isSubclass self.ty other.ty

/-- The Python exceptions raised by the verified code.  `keyError`,
`attributeError` and `typeError` are the builtin exceptions;
`networkXError` is the NetworkX error; the rest are declared in `ontology.py`
and `inference.py`. -/
inductive PyError where
  | valueError
  | keyError
  | attributeError
  | typeError
  | notImplementedError
  | networkXError
  | noSuchTermError
  | noSuchRelationshipError
  | internalStorageInconsistentError
  | invalidQueryError
deriving DecidableEq, Repr

/-- `NUM_GO_ID_DIGITS` from `ontology.py`. -/
def NUM_GO_ID_DIGITS : Nat := 7

/-- Python `str.isdigit`: true iff the string is nonempty and every
character is a digit.  Stated on the character list of the string so that
it evaluates by kernel reduction. -/
def pyIsdigit (s : String) : Bool :=
  !s.data.isEmpty && s.data.all Char.isDigit

/-- Python `s[n:]` (all slicing in the verified code is by character). -/
def pyDrop (s : String) (n : Nat) : String :=
  ⟨s.data.drop n⟩

/-- Python `str.startswith`. -/
def pyStartswith (s t : String) : Bool :=
  s.data.take t.data.length == t.data

/-- Python `len(s)`. -/
def pyLen (s : String) : Nat :=
  s.data.length

/-- `_validate_and_normalize_go_id` from `ontology.py`, for string inputs
(the non-string branch, which also ends in `ValueError`, is not needed by
any claim).  The source reads

  `if go_id.startswith("GO:") or True:` —

the `or True` makes the first branch unconditional, so `digits` is always
`go_id[3:]` and `normalized_id` is always `go_id` itself. -/
def _validate_and_normalize_go_id (go_id : String) : Except PyError String :=
  let pair :=
    if pyStartswith go_id "GO:" || true then (pyDrop go_id 3, go_id)
    else (go_id, "GO:" ++ go_id)
  let digits := pair.1
  let normalized_id := pair.2
  if !(pyIsdigit digits) then .error .valueError
  else if pyLen digits ≠ NUM_GO_ID_DIGITS then .error .valueError
  else .ok normalized_id

end GO

/-- Claim C1: id normalization is claimed to map a bare string of 7 decimal
digits to the `GO:`-prefixed form and to keep an already-prefixed id
unchanged.  The code keeps prefixed ids unchanged, but on the bare digit
string "0006955" it raises `ValueError` instead of returning "GO:0006955":
the `or True` in the branch condition makes the code strip the first three
characters of every input, leaving only 4 digits here. -/
theorem c1_normalize_bare_id_bug :
    GO._validate_and_normalize_go_id "GO:0006955" = .ok "GO:0006955" ∧
    GO._validate_and_normalize_go_id "0006955" = .error .valueError := by
  constructor
  · rfl
  · rfl

open GO

namespace GO

/-- The third component of a rule as stored by `Rules._initialize`: the
integer templates 1 and 2 (copy the class of the first/second operand) or a
fixed relationship class. -/
inductive RuleTarget where
  | copyFirst
  | copySecond
  | fixed (t : RelType)
deriving DecidableEq, BEq, Repr

/-- One inference rule: "if A r1 B and B r2 C then A r3 C". -/
structure Rule where
  r1 : RelType
  r2 : RelType
  r3 : RuleTarget
deriving DecidableEq, BEq, Repr

/-- `Rules.default_rules` after `_initialize` has resolved the relationship
names to classes:
`("regulates", "is_a", 1)`, `("regulates", "part_of", "regulates")`,
`("part_of", "inheritable", "part_of")`, `("is_a", "any", 2)`. -/
def default_rules : List Rule :=
  [⟨.regulates, .isA, .copyFirst⟩,
   ⟨.regulates, .partOf, .fixed .regulates⟩,
   ⟨.partOf, .inheritable, .fixed .partOf⟩,
   ⟨.isA, .anyRel, .copySecond⟩]

/-- The `for rule in self.rules` loop of `Rules.apply`: the first rule with
`isinstance(rel1, rule[0]) and isinstance(rel2, rule[1])` wins; 1 resolves
to `rel1.__class__`, 2 to `rel2.__class__`, otherwise the class held by the rule
is used, and `rel3(rel1.subject_term, rel2.object_term)` is returned. -/
def applyLoop (rel1 rel2 : Relationship) : List Rule → Option Relationship
  | [] => none
  | rule :: rest =>
    if isSubclass rel1.ty rule.r1 && isSubclass rel2.ty rule.r2 then
      let rel3 : RelType :=
        match rule.r3 with
        | .copyFirst => rel1.ty
        | .copySecond => rel2.ty
        | .fixed t => t
      some ⟨rel3, rel1.subjectTerm, rel2.objectTerm⟩
    else applyLoop rel1 rel2 rest

/-- `Rules.apply`: returns `None` unless `rel1.object_term == rel2.subject_term`
(term equality is by id), otherwise scans the rules in order. -/
def Rules.apply (rules : List Rule) (rel1 rel2 : Relationship) : Option Relationship :=
  if !(termEq rel1.objectTerm rel2.subjectTerm) then none
  else applyLoop rel1 rel2 rules

/-- Restatement of the description of `apply` in claim C3, written with
`List.find?`: the first rule whose `r1`/`r2` match by subtype wins and its
target is resolved. -/
def applySpec (rules : List Rule) (rel1 rel2 : Relationship) : Option Relationship :=
  if rel1.objectTerm.id = rel2.subjectTerm.id then
    match rules.find? (fun r => isSubclass rel1.ty r.r1 && isSubclass rel2.ty r.r2) with
    | some r =>
      some ⟨(match r.r3 with
             | .copyFirst => rel1.ty
             | .copySecond => rel2.ty
             | .fixed t => t), rel1.subjectTerm, rel2.objectTerm⟩
    | none => none
  else none

theorem Rules.apply_of_join (rules : List Rule) (rel1 rel2 : Relationship)
    (h : rel1.objectTerm.id = rel2.subjectTerm.id) :
    Rules.apply rules rel1 rel2 = applyLoop rel1 rel2 rules := by
  simp [Rules.apply, termEq, h]

theorem applyLoop_eq_find (rel1 rel2 : Relationship) (rules : List Rule) :
    applyLoop rel1 rel2 rules =
      (rules.find? (fun r => isSubclass rel1.ty r.r1 && isSubclass rel2.ty r.r2)).map
        (fun r => ⟨(match r.r3 with
                    | .copyFirst => rel1.ty
                    | .copySecond => rel2.ty
                    | .fixed t => t), rel1.subjectTerm, rel2.objectTerm⟩) := by
  induction rules with
  | nil => rfl
  | cons r rest ih =>
    by_cases h : (isSubclass rel1.ty r.r1 && isSubclass rel2.ty r.r2) = true
    · simp [applyLoop, List.find?_cons_of_pos, h]
    · rw [Bool.not_eq_true] at h
      simp [applyLoop, List.find?_cons_of_neg, h, ih]

/-- Concrete terms used by the witnesses below. -/
def tA : Term := ⟨"GO:0000001", "termA", []⟩

def tB : Term := ⟨"GO:0000002", "termB", []⟩

def tC : Term := ⟨"GO:0000003", "termC", []⟩

end GO

/-- Claim C3: `Rules.apply` returns none when the join point mismatches
(`rel1.object != rel2.subject`), and otherwise applies the first rule of
the ordered list whose `r1`/`r2` match the operand classes by subtype,
resolving 1 to the class of `rel1`, 2 to the class of `rel2`, or a fixed class, and
producing a relationship from `rel1.subject` to `rel2.object`; under the
default rules, `is_a` composes with `is_a` to `is_a`, `is_a` with
`regulates` to `regulates`, `regulates` with `is_a` to `regulates`,
`part_of` with `part_of` to `part_of`, and `part_of` with `regulates`
yields no inference. -/
theorem c3_rules_apply :
    (∀ (rules : List Rule) (rel1 rel2 : Relationship),
        Rules.apply rules rel1 rel2 = applySpec rules rel1 rel2) ∧
    (∀ (A B B' C : Term), B.id = B'.id →
        (Rules.apply default_rules ⟨.isA, A, B⟩ ⟨.isA, B', C⟩ = some ⟨.isA, A, C⟩ ∧
         Rules.apply default_rules ⟨.isA, A, B⟩ ⟨.regulates, B', C⟩ = some ⟨.regulates, A, C⟩ ∧
         Rules.apply default_rules ⟨.regulates, A, B⟩ ⟨.isA, B', C⟩ = some ⟨.regulates, A, C⟩ ∧
         Rules.apply default_rules ⟨.partOf, A, B⟩ ⟨.partOf, B', C⟩ = some ⟨.partOf, A, C⟩ ∧
         Rules.apply default_rules ⟨.partOf, A, B⟩ ⟨.regulates, B', C⟩ = none)) := by
  constructor
  · intro rules rel1 rel2
    by_cases h : rel1.objectTerm.id = rel2.subjectTerm.id
    · simp [Rules.apply, applySpec, termEq, h, applyLoop_eq_find]
      cases hf : rules.find? (fun r => isSubclass rel1.ty r.r1 && isSubclass rel2.ty r.r2) with
      | none => rfl
      | some r => rfl
    · simp [Rules.apply, applySpec, termEq, h]
  · intro A B B' C h
    refine ⟨?_, ?_, ?_, ?_, ?_⟩ <;>
      (rw [Rules.apply_of_join _ _ _ h]; rfl)

/-- Witness for C3 at concrete relationships. -/
theorem c3_rules_apply_witness :
    Rules.apply default_rules ⟨.isA, tA, tB⟩ ⟨.isA, tB, tC⟩ = some ⟨.isA, tA, tC⟩ ∧
    Rules.apply default_rules ⟨.partOf, tA, tB⟩ ⟨.regulates, tB, tC⟩ = none :=
  ⟨(c3_rules_apply.2 tA tB tB tC rfl).1,
   (c3_rules_apply.2 tA tB tB tC rfl).2.2.2.2⟩

/-- Claim C7: `PositivelyRegulates(A, B)` implies `Regulates(A, B)`; the
reverse does not hold; and no relationship implies one whose endpoint pair
differs (`implies` requires both endpoint terms to be equal). -/
theorem c7_implies :
    (∀ A B : Term,
        (Relationship.mk .positivelyRegulates A B).implies ⟨.regulates, A, B⟩ = true) ∧
    (∀ A B : Term,
        (Relationship.mk .regulates A B).implies ⟨.positivelyRegulates, A, B⟩ = false) ∧
    (∀ r1 r2 : Relationship,
        r1.subjectTerm.id ≠ r2.subjectTerm.id ∨ r1.objectTerm.id ≠ r2.objectTerm.id →
        r1.implies r2 = false) := by
  refine ⟨?_, ?_, ?_⟩
  · intro A B
    simp [Relationship.implies, termEq]
    rfl
  · intro A B
    simp [Relationship.implies, termEq]
    rfl
  · intro r1 r2 h
    rcases h with h | h
    · simp [Relationship.implies, termEq, h]
    · simp [Relationship.implies, termEq, h]

/-- Witness for C7 at concrete relationships. -/
theorem c7_implies_witness :
    (Relationship.mk .isA tA tB).implies ⟨.isA, tC, tB⟩ = false :=
  c7_implies.2.2 _ _ (Or.inl (by decide))

namespace GO

/-- One stored edge of the NetworkX directed graph: endpoints by term id
plus the `relationship` attribute. -/
structure Edge where
  src : String
  dst : String
  rel : RelType
deriving DecidableEq, BEq, Repr

/-- The state of a `GeneOntologyNX` instance: the `_goid_dict` id/alias
index, the node set and edge set of `_internal_dag`, and `owners`, the set
of term ids whose `GOTerm.ontology` attribute currently points at this
ontology (that attribute is mutated by `add_term` and `remove_term`). -/
structure GeneOntologyNX where
  goid_dict : List (String × Term)
  nodes : List String
  edges : List Edge
  owners : List String
deriving DecidableEq, Repr

/-- Python dict assignment `d[k] = v`: at most one binding per key. -/
def dictInsert (k : String) (v : Term) (d : List (String × Term)) : List (String × Term) :=
  (k, v) :: d.filter (fun p => !(p.1 == k))

/-- Python dict lookup `d[k]` (as an `Option`). -/
def dictLookup (k : String) (d : List (String × Term)) : Option Term :=
  (d.find? (fun p => p.1 == k)).map (fun p => p.2)

/-- Python `k in d`. -/
def dictHas (k : String) (d : List (String × Term)) : Bool :=
  (dictLookup k d).isSome

/-- Python `del d[k]`. -/
def dictDelete (k : String) (d : List (String × Term)) : List (String × Term) :=
  d.filter (fun p => !(p.1 == k))

/-- NetworkX `add_node`: a no-op when the node exists. -/
def addNode (nid : String) (nodes : List String) : List String :=
  if nodes.contains nid then nodes else nid :: nodes

/-- NetworkX `remove_node` on the node set. -/
def removeNode (nid : String) (nodes : List String) : List String :=
  nodes.filter (fun n => !(n == nid))

/-- NetworkX `add_edge`: the adjacency structure is a dict of dicts, so an
existing `(src, dst)` edge is overwritten together with its attributes. -/
def addEdge (src dst : String) (rel : RelType) (es : List Edge) : List Edge :=
  ⟨src, dst, rel⟩ :: es.filter (fun e => !(e.src == src && e.dst == dst))

/-- NetworkX `remove_edge` on the edge set. -/
def removeEdge (src dst : String) (es : List Edge) : List Edge :=
  es.filter (fun e => !(e.src == src && e.dst == dst))

/-- Whether the graph stores an edge from `src` to `dst`. -/
def hasEdge (src dst : String) (es : List Edge) : Bool :=
  es.any (fun e => e.src == src && e.dst == dst)

/-- NetworkX `remove_node` also deletes every incident edge. -/
def removeIncidentEdges (nid : String) (es : List Edge) : List Edge :=
  es.filter (fun e => !(e.src == nid || e.dst == nid))

/-- `GeneOntologyNX._test_existence_in_internal_storage`:
`(term.id in self._internal_dag, term.id in self._goid_dict)`. -/
def _test_existence_in_internal_storage (o : GeneOntologyNX) (term : Term) : Bool × Bool :=
  (o.nodes.contains term.id, dictHas term.id o.goid_dict)

/-- `GeneOntologyNX.has_term`: `True` if every storage structure holds the
term, `False` if none does, `InternalStorageInconsistentError` otherwise. -/
def has_term (o : GeneOntologyNX) (term : Term) : Except PyError Bool :=
  let s := _test_existence_in_internal_storage o term
  if s.1 && s.2 then .ok true
  else if !s.1 && !s.2 then .ok false
  else .error .internalStorageInconsistentError

/-- `GeneOntologyNX.add_term`: `ValueError` when the id is already indexed
or the term is already owned by an ontology; otherwise sets the owner,
indexes the primary id and every alias, and adds the graph node. -/
def add_term (o : GeneOntologyNX) (term : Term) : Except PyError GeneOntologyNX :=
  if dictHas term.id o.goid_dict then .error .valueError
  else if o.owners.contains term.id then .error .valueError
  else
    .ok { goid_dict := term.aliases.foldl (fun d alt => dictInsert alt term d)
                          (dictInsert term.id term o.goid_dict),
          nodes := addNode term.id o.nodes,
          edges := o.edges,
          owners := term.id :: o.owners }

/-- `GeneOntologyNX.get_term_by_id`: resolves primary ids and aliases via
`_goid_dict`; `NoSuchTermError` when absent. -/
def get_term_by_id (o : GeneOntologyNX) (term_id : String) : Except PyError Term :=
  match dictLookup term_id o.goid_dict with
  | some t => .ok t
  | none => .error .noSuchTermError

/-- `GeneOntologyNX.remove_term`: `del self._goid_dict[term.id]` (a missing
key becomes `NoSuchTermError`), then `remove_node` (a missing node raises
the NetworkX error, which the `except KeyError` clause does not catch),
then `term.ontology = None`.  Alias index entries are not touched. -/
def remove_term (o : GeneOntologyNX) (term : Term) : Except PyError GeneOntologyNX :=
  if !(dictHas term.id o.goid_dict) then .error .noSuchTermError
  else if !(o.nodes.contains term.id) then .error .networkXError
  else
    .ok { goid_dict := dictDelete term.id o.goid_dict,
          nodes := removeNode term.id o.nodes,
          edges := removeIncidentEdges term.id o.edges,
          owners := o.owners.filter (fun i => !(i == term.id)) }

/-- The body of the `for term in (subject_term, object_term)` loop in
`GeneOntologyNX.add_relationship`: `if term not in self:
self.add_term(term)` (the membership test goes through `has_term` and may
raise). -/
def ensure_member (o : GeneOntologyNX) (term : Term) : Except PyError GeneOntologyNX := do
  let ht ← has_term o term
  if ht then pure o else add_term o term

/-- `GeneOntologyNX.add_relationship`: each endpoint that is not yet a
member is added with `add_term` (see `ensure_member`); then `add_edge`
stores the edge with the relationship class as its attribute. -/
def add_relationship (o : GeneOntologyNX) (subject_term object_term : Term)
    (relationship : RelType) : Except PyError GeneOntologyNX := do
  let o1 ← ensure_member o subject_term
  let o2 ← ensure_member o1 object_term
  .ok { o2 with
        nodes := addNode object_term.id (addNode subject_term.id o2.nodes),
        edges := addEdge subject_term.id object_term.id relationship o2.edges }

/-- The list comprehension at the end of `get_relationships`: each selected
edge is turned into `data["relationship"](self._goid_dict[src],
self._goid_dict[dst])`; a missing dict key would raise `KeyError`. -/
def relsFromEdges (o : GeneOntologyNX) : List Edge → Except PyError (List Relationship)
  | [] => .ok []
  | e :: rest => do
    let s ← (match dictLookup e.src o.goid_dict with
             | some t => Except.ok t
             | none => Except.error PyError.keyError)
    let t ← (match dictLookup e.dst o.goid_dict with
             | some t => Except.ok t
             | none => Except.error PyError.keyError)
    let rs ← relsFromEdges o rest
    .ok (⟨e.rel, s, t⟩ :: rs)

/-- `GeneOntologyNX.get_relationships`: all edges, the out-edges of the
subject, the in-edges of the object, or the out-edges of the subject
filtered to the given object, then converted to relationship objects. -/
def get_relationships (o : GeneOntologyNX) (subject_term object_term : Option Term) :
    Except PyError (List Relationship) :=
  let result : List Edge :=
    match subject_term, object_term with
    | none, none => o.edges
    | some s, none => o.edges.filter (fun e => e.src == s.id)
    | none, some t => o.edges.filter (fun e => e.dst == t.id)
    | some s, some t => (o.edges.filter (fun e => e.src == s.id)).filter (fun e => e.dst == t.id)
  relsFromEdges o result

/-- `NoSuchRelationshipError.__init__(subject_term, relation, object_term)`.
With both `subject_term` and `object_term` equal to `None` the message is
built from `relation` alone and the error object is produced.  In every
other case the code first replaces `subject_term` and `object_term` by
strings (`str(term.id)` or `repr(term)`) and then evaluates
`subject_term.id` and `object_term.id` on those strings, so the
constructor itself raises `AttributeError`. -/
def mkNoSuchRelationshipError {α : Type} (subject_term : Option Term)
    (_relation : Option α) (object_term : Option Term) : Except PyError PyError :=
  match subject_term, object_term with
  | none, none => .ok .noSuchRelationshipError
  | _, _ => .error .attributeError

/-- `GeneOntologyNX.remove_relationship`: `remove_edge` with the given
endpoints — the `relationship` argument is never consulted.  When the edge
(or an endpoint node) is missing, the caught NetworkX error is answered by
`raise NoSuchRelationshipError(subject_term, object_term)`; the two
positional arguments land in the `subject_term` and `relation` slots of the
constructor, which then raises `AttributeError` (see
`mkNoSuchRelationshipError`). -/
def remove_relationship (o : GeneOntologyNX) (subject_term object_term : Term)
    (relationship : RelType) : Except PyError GeneOntologyNX :=
  if hasEdge subject_term.id object_term.id o.edges then
    .ok { o with edges := removeEdge subject_term.id object_term.id o.edges }
  else
    match mkNoSuchRelationshipError (some subject_term) (some object_term)
        (none : Option Term) with
    | .ok e => .error e
    | .error e => .error e

/-- A freshly constructed `GeneOntologyNX()`. -/
def emptyOntology : GeneOntologyNX :=
  ⟨[], [], [], []⟩

/-- An ontology holding exactly one `is_a` edge from `tA` to `tB`. -/
def c4Ont : Except PyError GeneOntologyNX :=
  add_relationship emptyOntology tA tB .isA

end GO

/-- Claim C4: `remove_relationship` is claimed to fail with
`NoSuchRelationshipError` exactly when no relationship of a matching type
exists for the ordered pair and otherwise to remove only a matching
relationship.  The code does neither: it removes the stored `is_a` edge
even when asked for a `part_of` relationship, and when no edge exists at
all it raises `AttributeError`, because the `NoSuchRelationshipError`
constructor is handed the object term in its `relation` slot and then
reads `.id` off a plain string. -/
theorem c4_remove_relationship_bug :
    (∃ o o', c4Ont = .ok o ∧
        remove_relationship o tA tB .partOf = .ok o' ∧ o'.edges = []) ∧
    remove_relationship emptyOntology tA tB .isA = .error .attributeError := by
  exact ⟨⟨_, _, rfl, rfl, rfl⟩, rfl⟩

namespace GO

theorem find?_filter_of_imp {α : Type} (p q : α → Bool) (l : List α)
    (h : ∀ x, p x = true → q x = true) :
    (l.filter q).find? p = l.find? p := by
  induction l with
  | nil => rfl
  | cons a l ih =>
    cases hq : q a with
    | true =>
      rw [List.filter_cons_of_pos hq]
      cases hp : p a with
      | true => rw [List.find?_cons_of_pos _ hp, List.find?_cons_of_pos _ hp]
      | false =>
        rw [List.find?_cons_of_neg _ (by simp [hp]), List.find?_cons_of_neg _ (by simp [hp])]
        exact ih
    | false =>
      have hp : p a = false := by
        cases hpa : p a with
        | false => rfl
        | true => simp [h a hpa] at hq
      rw [List.filter_cons_of_neg (by simp [hq]), List.find?_cons_of_neg _ (by simp [hp])]
      exact ih

theorem find?_filter_none {α : Type} (p q : α → Bool) (l : List α)
    (h : ∀ x, p x = true → q x = false) :
    (l.filter q).find? p = none := by
  rw [List.find?_eq_none]
  intro x hx hp
  have hq := (List.mem_filter.mp hx).2
  simp [h x hp] at hq

theorem dictLookup_insert (k k' : String) (v : Term) (d : List (String × Term)) :
    dictLookup k (dictInsert k' v d) = if k = k' then some v else dictLookup k d := by
  unfold dictLookup dictInsert
  by_cases h : k = k'
  · subst h
    rw [List.find?_cons_of_pos _ (by simp)]
    simp
  · rw [List.find?_cons_of_neg _ (by simp [Ne.symm h])]
    rw [find?_filter_of_imp]
    · simp [h]
    · intro x hx
      simp only [beq_iff_eq] at hx
      simp [hx, h]

theorem dictLookup_delete (k k' : String) (d : List (String × Term)) :
    dictLookup k (dictDelete k' d) = if k = k' then none else dictLookup k d := by
  unfold dictLookup dictDelete
  by_cases h : k = k'
  · subst h
    rw [find?_filter_none]
    · simp
    · intro x hx
      simp only [beq_iff_eq] at hx
      simp [hx]
  · rw [find?_filter_of_imp]
    · simp [h]
    · intro x hx
      simp only [beq_iff_eq] at hx
      simp [hx, h]

theorem dictLookup_foldl (k : String) (t : Term) (xs : List String) (d : List (String × Term)) :
    dictLookup k (xs.foldl (fun d alt => dictInsert alt t d) d) =
      if k ∈ xs then some t else dictLookup k d := by
  induction xs generalizing d with
  | nil => simp
  | cons x xs ih =>
    rw [List.foldl_cons, ih, dictLookup_insert]
    by_cases hxs : k ∈ xs
    · simp [hxs]
    · by_cases hx : k = x
      · simp [hxs, hx]
      · simp [hxs, hx]

theorem contains_filter_ne_self (k : String) (l : List String) :
    (l.filter (fun x => !(x == k))).contains k = false := by
  induction l with
  | nil => rfl
  | cons a l ih =>
    by_cases h : a = k
    · rw [List.filter_cons_of_neg (by simp [h])]
      exact ih
    · rw [List.filter_cons_of_pos (by simp [h])]
      simp only [List.contains_cons]
      simp [Ne.symm h, ih]

theorem has_term_ok_false_iff (o : GeneOntologyNX) (t : Term) :
    has_term o t = .ok false ↔
      o.nodes.contains t.id = false ∧ dictHas t.id o.goid_dict = false := by
  unfold has_term _test_existence_in_internal_storage
  cases h1 : o.nodes.contains t.id <;> cases h2 : dictHas t.id o.goid_dict <;> simp

theorem has_term_ok_true_iff (o : GeneOntologyNX) (t : Term) :
    has_term o t = .ok true ↔
      o.nodes.contains t.id = true ∧ dictHas t.id o.goid_dict = true := by
  unfold has_term _test_existence_in_internal_storage
  cases h1 : o.nodes.contains t.id <;> cases h2 : dictHas t.id o.goid_dict <;> simp

end GO

/-- Claim C10: after `add_term(t)` and `remove_term(t)` for a term with an
alias `a`, the term is gone (`has_term` false, owner cleared), but
`remove_term` deletes only the primary-id entry of `_goid_dict`, so the
alias entry survives and `get_term_by_id(a)` still returns `t` instead of
failing with `NoSuchTermError`. -/
theorem c10_remove_term_keeps_alias :
    ∀ (o : GeneOntologyNX) (t : Term) (a : String),
      a ∈ t.aliases → a ≠ t.id →
      has_term o t = .ok false → o.owners.contains t.id = false →
      ∃ o1 o2, add_term o t = .ok o1 ∧ remove_term o1 t = .ok o2 ∧
        has_term o2 t = .ok false ∧ o2.owners.contains t.id = false ∧
        get_term_by_id o2 a = .ok t := by
  intro o t a ha hane hft how
  obtain ⟨hn, hd⟩ := (has_term_ok_false_iff o t).mp hft
  have how' : t.id ∉ o.owners := by simpa using how
  have hn' : t.id ∉ o.nodes := by simpa using hn
  have h1 : add_term o t = .ok
      { goid_dict := t.aliases.foldl (fun d alt => dictInsert alt t d)
            (dictInsert t.id t o.goid_dict),
        nodes := addNode t.id o.nodes,
        edges := o.edges,
        owners := t.id :: o.owners } := by
    simp [add_term, hd, how']
  have hd1 : dictHas t.id
      (t.aliases.foldl (fun d alt => dictInsert alt t d)
        (dictInsert t.id t o.goid_dict)) = true := by
    by_cases hmem : t.id ∈ t.aliases <;>
      simp [dictHas, dictLookup_foldl, dictLookup_insert, hmem]
  have hn1 : t.id ∈ addNode t.id o.nodes := by
    simp [addNode, hn']
  have h2 : remove_term
      { goid_dict := t.aliases.foldl (fun d alt => dictInsert alt t d)
            (dictInsert t.id t o.goid_dict),
        nodes := addNode t.id o.nodes,
        edges := o.edges,
        owners := t.id :: o.owners } t = .ok
      { goid_dict := dictDelete t.id
            (t.aliases.foldl (fun d alt => dictInsert alt t d)
              (dictInsert t.id t o.goid_dict)),
        nodes := removeNode t.id (addNode t.id o.nodes),
        edges := removeIncidentEdges t.id o.edges,
        owners := (t.id :: o.owners).filter (fun i => !(i == t.id)) } := by
    simp [remove_term, hd1, hn1]
  refine ⟨_, _, h1, h2, ?_, ?_, ?_⟩
  · refine (has_term_ok_false_iff _ _).mpr ⟨?_, ?_⟩
    · exact contains_filter_ne_self t.id _
    · simp [dictHas, dictLookup_delete]
  · exact contains_filter_ne_self t.id _
  · simp [get_term_by_id, dictLookup_delete, hane, dictLookup_foldl, ha]

/-- A concrete term with an alias, for the C10 witness. -/
def tD : Term := ⟨"GO:0000005", "termD", ["GO:0000006"]⟩

/-- Witness for C10 on the empty ontology and the aliased term `tD`. -/
theorem c10_remove_term_keeps_alias_witness :
    ∃ o1 o2, add_term emptyOntology tD = .ok o1 ∧ remove_term o1 tD = .ok o2 ∧
      has_term o2 tD = .ok false ∧ o2.owners.contains tD.id = false ∧
      get_term_by_id o2 "GO:0000006" = .ok tD :=
  c10_remove_term_keeps_alias emptyOntology tD "GO:0000006" (by decide) (by decide) rfl rfl

namespace GO

theorem exceptBindOk {α β : Type} (a : α) (f : α → Except PyError β) :
    ((Except.ok a : Except PyError α) >>= f) = f a := rfl

end GO

/-- Claim C8: `add_relationship(A, B, is_a)` on an ontology containing
neither `A` nor `B` auto-inserts both terms, and afterwards the
relationship is the unique out-edge of `A`, the unique in-edge of `B`, the
unique edge from `A` to `B`, while no edge runs from `B` to `A`. -/
theorem c8_add_relationship_autoinsert :
    ∀ (o : GeneOntologyNX) (A B : Term),
      has_term o A = .ok false → has_term o B = .ok false →
      A.id ∉ o.owners → B.id ∉ o.owners →
      A.id ≠ B.id → A.id ∉ B.aliases → B.id ∉ A.aliases →
      (∀ e ∈ o.edges, e.src ∈ o.nodes ∧ e.dst ∈ o.nodes) →
      ∃ o', add_relationship o A B .isA = .ok o' ∧
        get_relationships o' (some A) none = .ok [⟨.isA, A, B⟩] ∧
        get_relationships o' none (some B) = .ok [⟨.isA, A, B⟩] ∧
        get_relationships o' (some A) (some B) = .ok [⟨.isA, A, B⟩] ∧
        get_relationships o' (some B) (some A) = .ok [] := by
  intro o A B hA hB howA howB hAB hBali hAali hWF
  obtain ⟨hnA, hdA⟩ := (has_term_ok_false_iff o A).mp hA
  obtain ⟨hnB, hdB⟩ := (has_term_ok_false_iff o B).mp hB
  have hnA' : A.id ∉ o.nodes := by simpa using hnA
  have hnB' : B.id ∉ o.nodes := by simpa using hnB
  have hBA : B.id ≠ A.id := Ne.symm hAB
  have haddA : add_term o A = .ok
      ⟨A.aliases.foldl (fun d alt => dictInsert alt A d) (dictInsert A.id A o.goid_dict),
       A.id :: o.nodes, o.edges, A.id :: o.owners⟩ := by
    simp [add_term, hdA, howA, addNode, hnA']
  have hdB' : (dictLookup B.id o.goid_dict).isSome = false := hdB
  have hdActx : dictHas B.id
      (A.aliases.foldl (fun d alt => dictInsert alt A d) (dictInsert A.id A o.goid_dict))
      = false := by
    simp [dictHas, dictLookup_foldl, dictLookup_insert, hAali, hBA, hdB']
  have hftB : has_term
      ⟨A.aliases.foldl (fun d alt => dictInsert alt A d) (dictInsert A.id A o.goid_dict),
       A.id :: o.nodes, o.edges, A.id :: o.owners⟩ B = .ok false := by
    refine (has_term_ok_false_iff _ _).mpr ⟨?_, hdActx⟩
    simp [hBA, hnB']
  have haddB : add_term
      ⟨A.aliases.foldl (fun d alt => dictInsert alt A d) (dictInsert A.id A o.goid_dict),
       A.id :: o.nodes, o.edges, A.id :: o.owners⟩ B = .ok
      ⟨B.aliases.foldl (fun d alt => dictInsert alt B d)
         (dictInsert B.id B (A.aliases.foldl (fun d alt => dictInsert alt A d)
           (dictInsert A.id A o.goid_dict))),
       B.id :: A.id :: o.nodes, o.edges, B.id :: A.id :: o.owners⟩ := by
    simp [add_term, hdActx, howB, hBA, addNode, hnB']
  have key : add_relationship o A B .isA = .ok
      ⟨B.aliases.foldl (fun d alt => dictInsert alt B d)
         (dictInsert B.id B (A.aliases.foldl (fun d alt => dictInsert alt A d)
           (dictInsert A.id A o.goid_dict))),
       B.id :: A.id :: o.nodes,
       addEdge A.id B.id .isA o.edges, B.id :: A.id :: o.owners⟩ := by
    simp [add_relationship, ensure_member, hA, haddA, hftB, haddB, exceptBindOk, addNode]
  have hlookA : dictLookup A.id
      (B.aliases.foldl (fun d alt => dictInsert alt B d)
        (dictInsert B.id B (A.aliases.foldl (fun d alt => dictInsert alt A d)
          (dictInsert A.id A o.goid_dict)))) = some A := by
    by_cases hself : A.id ∈ A.aliases <;>
      simp [dictLookup_foldl, dictLookup_insert, hBali, hAB, hself]
  have hlookB : dictLookup B.id
      (B.aliases.foldl (fun d alt => dictInsert alt B d)
        (dictInsert B.id B (A.aliases.foldl (fun d alt => dictInsert alt A d)
          (dictInsert A.id A o.goid_dict)))) = some B := by
    by_cases hself : B.id ∈ B.aliases <;>
      simp [dictLookup_foldl, dictLookup_insert, hself]
  have hsrcA : ∀ e ∈ o.edges, (e.src == A.id) = false := by
    intro e he
    have hmem := (hWF e he).1
    simp only [beq_eq_false_iff_ne]
    intro hcontra
    exact hnA' (hcontra ▸ hmem)
  have hdstB : ∀ e ∈ o.edges, (e.dst == B.id) = false := by
    intro e he
    have hmem := (hWF e he).2
    simp only [beq_eq_false_iff_ne]
    intro hcontra
    exact hnB' (hcontra ▸ hmem)
  have hsrcB : ∀ e ∈ o.edges, (e.src == B.id) = false := by
    intro e he
    have hmem := (hWF e he).1
    simp only [beq_eq_false_iff_ne]
    intro hcontra
    exact hnB' (hcontra ▸ hmem)
  have hfilterA :
      (addEdge A.id B.id .isA o.edges).filter (fun e => e.src == A.id)
        = [⟨A.id, B.id, .isA⟩] := by
    unfold addEdge
    rw [List.filter_cons_of_pos (by simp)]
    rw [List.filter_eq_nil_iff.mpr]
    intro e he
    have := hsrcA e (List.mem_filter.mp he).1
    simp [this]
  have hfilterB :
      (addEdge A.id B.id .isA o.edges).filter (fun e => e.dst == B.id)
        = [⟨A.id, B.id, .isA⟩] := by
    unfold addEdge
    rw [List.filter_cons_of_pos (by simp)]
    rw [List.filter_eq_nil_iff.mpr]
    intro e he
    have := hdstB e (List.mem_filter.mp he).1
    simp [this]
  have hfilterBA :
      (addEdge A.id B.id .isA o.edges).filter (fun e => e.src == B.id) = [] := by
    unfold addEdge
    rw [List.filter_cons_of_neg (by simp [hAB])]
    rw [List.filter_eq_nil_iff.mpr]
    intro e he
    have := hsrcB e (List.mem_filter.mp he).1
    simp [this]
  refine ⟨_, key, ?_, ?_, ?_, ?_⟩
  · simp [get_relationships, hfilterA, relsFromEdges, hlookA, hlookB, exceptBindOk]
  · simp [get_relationships, hfilterB, relsFromEdges, hlookA, hlookB, exceptBindOk]
  · simp [get_relationships, hfilterA, relsFromEdges, hlookA, hlookB, exceptBindOk]
  · simp [get_relationships, hfilterBA, relsFromEdges]

namespace GO

theorem exceptBindErr {α β : Type} (e : PyError) (f : α → Except PyError β) :
    ((Except.error e : Except PyError α) >>= f) = .error e := rfl

theorem exceptBind_ok_inv {α β : Type} (m : Except PyError α) (f : α → Except PyError β)
    (b : β) (h : (m >>= f) = .ok b) : ∃ a, m = .ok a ∧ f a = .ok b := by
  cases m with
  | ok a => exact ⟨a, rfl, h⟩
  | error e =>
    rw [exceptBindErr] at h
    simp at h

theorem add_term_ok (o : GeneOntologyNX) (t : Term) (o' : GeneOntologyNX)
    (h : add_term o t = .ok o') :
    o'.edges = o.edges ∧ dictHas t.id o'.goid_dict = true ∧
    (∀ k, dictHas k o.goid_dict = true → dictHas k o'.goid_dict = true) := by
  unfold add_term at h
  split at h
  · simp at h
  · split at h
    · simp at h
    · simp only [Except.ok.injEq] at h
      subst h
      refine ⟨rfl, ?_, ?_⟩
      · by_cases hmem : t.id ∈ t.aliases <;>
          simp [dictHas, dictLookup_foldl, dictLookup_insert, hmem]
      · intro k hk
        have hk' : (dictLookup k o.goid_dict).isSome = true := hk
        by_cases hmem : k ∈ t.aliases
        · simp [dictHas, dictLookup_foldl, hmem]
        · by_cases hkt : k = t.id
          · simp [dictHas, dictLookup_foldl, dictLookup_insert, hmem, hkt]
          · simp [dictHas, dictLookup_foldl, dictLookup_insert, hmem, hkt, hk']

theorem ensure_member_ok (o : GeneOntologyNX) (t : Term) (o' : GeneOntologyNX)
    (h : ensure_member o t = .ok o') :
    o'.edges = o.edges ∧ dictHas t.id o'.goid_dict = true ∧
    (∀ k, dictHas k o.goid_dict = true → dictHas k o'.goid_dict = true) := by
  unfold ensure_member at h
  obtain ⟨b, hb, h⟩ := exceptBind_ok_inv _ _ _ h
  cases b with
  | true =>
    have hp : (pure o : Except PyError GeneOntologyNX) = Except.ok o' := by simpa using h
    have h' : o = o' := Except.ok.inj hp
    subst h'
    exact ⟨rfl, ((has_term_ok_true_iff o t).mp hb).2, fun k hk => hk⟩
  | false =>
    have h' : add_term o t = .ok o' := by simpa using h
    exact add_term_ok o t o' h'

theorem add_relationship_ok (o : GeneOntologyNX) (A B : Term) (T : RelType)
    (o' : GeneOntologyNX) (h : add_relationship o A B T = .ok o') :
    o'.edges = addEdge A.id B.id T o.edges ∧
    dictHas A.id o'.goid_dict = true ∧ dictHas B.id o'.goid_dict = true := by
  unfold add_relationship at h
  obtain ⟨o1, ho1, h⟩ := exceptBind_ok_inv _ _ _ h
  obtain ⟨o2, ho2, h⟩ := exceptBind_ok_inv _ _ _ h
  simp only [Except.ok.injEq] at h
  obtain ⟨heA, hdA, _⟩ := ensure_member_ok o A o1 ho1
  obtain ⟨heB, hdB, hmono⟩ := ensure_member_ok o1 B o2 ho2
  subst h
  exact ⟨by rw [heB, heA], hmono A.id hdA, hdB⟩

/-- At most one edge per ordered `(src, dst)` pair, as a boolean check. -/
def edgesKeyNodupb : List Edge → Bool
  | [] => true
  | e :: rest =>
    !(rest.any (fun e2 => e2.src == e.src && e2.dst == e.dst)) && edgesKeyNodupb rest

theorem any_filter_false {α : Type} (p q : α → Bool) (l : List α)
    (h : l.any p = false) : (l.filter q).any p = false := by
  cases hv : (l.filter q).any p with
  | false => rfl
  | true =>
    obtain ⟨x, hx, hp⟩ := List.any_eq_true.mp hv
    have : l.any p = true := List.any_eq_true.mpr ⟨x, (List.mem_filter.mp hx).1, hp⟩
    rw [h] at this
    cases this

theorem edgesKeyNodupb_filter (q : Edge → Bool) (l : List Edge)
    (h : edgesKeyNodupb l = true) : edgesKeyNodupb (l.filter q) = true := by
  induction l with
  | nil => rfl
  | cons e rest ih =>
    rw [edgesKeyNodupb, Bool.and_eq_true] at h
    cases hq : q e with
    | false =>
      rw [List.filter_cons_of_neg (by simp [hq])]
      exact ih h.2
    | true =>
      rw [List.filter_cons_of_pos hq, edgesKeyNodupb, Bool.and_eq_true]
      have hany : (rest.any fun e2 => e2.src == e.src && e2.dst == e.dst) = false := by
        have h1 := h.1
        rwa [Bool.not_eq_true'] at h1
      refine ⟨?_, ih h.2⟩
      rw [any_filter_false _ q rest hany]
      rfl

theorem any_key_filter_notkey (a b : String) (l : List Edge) :
    ((l.filter (fun e => !(e.src == a && e.dst == b))).any
      (fun e2 => e2.src == a && e2.dst == b)) = false := by
  cases hv : (l.filter (fun e => !(e.src == a && e.dst == b))).any
      (fun e2 => e2.src == a && e2.dst == b) with
  | false => rfl
  | true =>
    obtain ⟨x, hx, hp⟩ := List.any_eq_true.mp hv
    have := (List.mem_filter.mp hx).2
    simp [hp] at this

theorem edgesKeyNodupb_addEdge (a b : String) (r : RelType) (l : List Edge)
    (h : edgesKeyNodupb l = true) : edgesKeyNodupb (addEdge a b r l) = true := by
  unfold addEdge
  rw [edgesKeyNodupb, Bool.and_eq_true]
  refine ⟨?_, edgesKeyNodupb_filter _ l h⟩
  have := any_key_filter_notkey a b l
  simp only [this]
  rfl

theorem filter_filter_key_nil (a b : String) (l : List Edge) :
    ((l.filter (fun e => !(e.src == a && e.dst == b))).filter
        (fun e => e.src == a)).filter (fun e => e.dst == b) = [] := by
  rw [List.filter_eq_nil_iff]
  intro e he
  have h1 := List.mem_filter.mp he
  have hkey := (List.mem_filter.mp h1.1).2
  simp only [h1.2, Bool.true_and, Bool.not_eq_true'] at hkey
  simp [hkey]

end GO

/-- Claim C9: the NetworkX backend stores at most one relationship per
ordered pair of terms: its adjacency structure is keyed by `(src, dst)`,
`add_edge` overwrites the stored attributes, so after adding a `T1`
relationship and then a `T2` relationship for the same pair,
`get_relationships(A, B)` yields exactly one relationship and its type is
`T2`; the one-edge-per-pair property is preserved by `add_relationship`. -/
theorem c9_relationship_replaced :
    ∀ (o o1 o2 : GeneOntologyNX) (A B : Term) (T1 T2 : RelType),
      edgesKeyNodupb o.edges = true →
      add_relationship o A B T1 = .ok o1 →
      add_relationship o1 A B T2 = .ok o2 →
      edgesKeyNodupb o2.edges = true ∧
      ∃ sA sB, get_relationships o2 (some A) (some B) = .ok [⟨T2, sA, sB⟩] := by
  intro o o1 o2 A B T1 T2 hnodup h1 h2
  obtain ⟨he1, _, _⟩ := add_relationship_ok o A B T1 o1 h1
  obtain ⟨he2, hdA2, hdB2⟩ := add_relationship_ok o1 A B T2 o2 h2
  obtain ⟨sA, hsA⟩ := Option.isSome_iff_exists.mp hdA2
  obtain ⟨sB, hsB⟩ := Option.isSome_iff_exists.mp hdB2
  constructor
  · rw [he2, he1]
    exact edgesKeyNodupb_addEdge _ _ _ _
      (edgesKeyNodupb_addEdge _ _ _ _ hnodup)
  · refine ⟨sA, sB, ?_⟩
    have hedges : o2.edges = Edge.mk A.id B.id T2 ::
        ((o.edges.filter (fun e => !(e.src == A.id && e.dst == B.id))).filter
          (fun e => !(e.src == A.id && e.dst == B.id))) := by
      rw [he2, he1]
      unfold addEdge
      rw [List.filter_cons_of_neg (by simp)]
    simp only [get_relationships, hedges]
    rw [List.filter_cons_of_pos (by simp), List.filter_cons_of_pos (by simp)]
    rw [filter_filter_key_nil]
    simp [relsFromEdges, hsA, hsB, exceptBindOk]

/-- Witness for C8 on the empty ontology. -/
theorem c8_add_relationship_autoinsert_witness :
    ∃ o', add_relationship emptyOntology tA tB .isA = .ok o' ∧
      get_relationships o' (some tA) none = .ok [⟨.isA, tA, tB⟩] ∧
      get_relationships o' none (some tB) = .ok [⟨.isA, tA, tB⟩] ∧
      get_relationships o' (some tA) (some tB) = .ok [⟨.isA, tA, tB⟩] ∧
      get_relationships o' (some tB) (some tA) = .ok [] :=
  c8_add_relationship_autoinsert emptyOntology tA tB rfl rfl
    (by simp [emptyOntology]) (by simp [emptyOntology]) (by decide) (by decide) (by decide)
    (by simp [emptyOntology])

namespace GO

/-- The ontology after `add_relationship(tA, tB, is_a)` on the empty one. -/
def c9Mid : GeneOntologyNX :=
  match add_relationship emptyOntology tA tB .isA with
  | .ok o => o
  | .error _ => emptyOntology

/-- The ontology after a further `add_relationship(tA, tB, part_of)`. -/
def c9End : GeneOntologyNX :=
  match add_relationship c9Mid tA tB .partOf with
  | .ok o => o
  | .error _ => emptyOntology

end GO

/-- Witness for C9: an `is_a` edge replaced by a `part_of` edge. -/
theorem c9_relationship_replaced_witness :
    edgesKeyNodupb c9End.edges = true ∧
    ∃ sA sB, get_relationships c9End (some tA) (some tB) = .ok [⟨.partOf, sA, sB⟩] :=
  c9_relationship_replaced emptyOntology c9Mid c9End tA tB .isA .partOf rfl rfl rfl

namespace GO

/-- The relation argument accepted by the `Query` relation setter: `UNBOUND`
(`None`), a `GORelationship` subclass, or any other value (such as a name
string), which the setter passes to `GORelationship.from_name`. -/
inductive RelationArg where
  | unbound
  | byClass (t : RelType)
  | byName (s : String)

/-- `Query._set_relation`: raises `ValueError` for `UNBOUND`; a
`GORelationship` subclass passes through; any other value is handed to
`GORelationship.from_name` — but `from_name` is defined on
`GORelationshipFactory`, not on `GORelationship`, so that path raises
`AttributeError`. -/
def set_relation : RelationArg → Except PyError RelType
  | .unbound => .error .valueError
  | .byClass t => .ok t
  | .byName _ => .error .attributeError

/-- A constructed `Query` object: subject term, relation class, object
term; either endpoint may be `UNBOUND` (`none`). -/
structure Query where
  subject_term : Option Term
  relation : RelType
  object_term : Option Term

/-- `Query.__init__` for endpoints that are `GOTerm` instances or
`UNBOUND`: the relation setter runs first and may raise; the endpoint
setters call `ensure_term`, which passes `GOTerm` instances through
unchanged. -/
def mkQuery (_ontology : GeneOntologyNX) (subject_term : Option Term)
    (relation : RelationArg) (object_term : Option Term) : Except PyError Query := do
  let r ← set_relation relation
  .ok ⟨subject_term, r, object_term⟩

/-- `InvalidQueryError.__init__` executes `super.__init__(self, reason)`:
`super` there is the builtin `super` type itself, not a proxy, so the call
raises `TypeError` before any `InvalidQueryError` instance exists. -/
def mkInvalidQueryError : Except PyError PyError :=
  .error .typeError

/-- `InferenceEngine.solve_unbound_object`: the body is a TODO stub that
builds and returns an empty result list. -/
def solve_unbound_object (_query : Query) : List Term :=
  []

/-- `InferenceEngine.solve` (the def lacks `self`, so in Python even
invoking it as a bound method raises `TypeError`; the body modelled here
is what the function itself computes).  With both endpoints unbound it
raises `InvalidQueryError` — whose constructor itself raises `TypeError`
(see `mkInvalidQueryError`).  When the object term is unbound,
`self.solve_unbound_object(query)` is evaluated but its result is
discarded (the statement has no `return`), and the method falls through to
`raise NotImplementedError` in every remaining case. -/
def solve (query : Query) : Except PyError (List Term) :=
  if query.subject_term.isNone && query.object_term.isNone then
    match mkInvalidQueryError with
    | .ok e => .error e
    | .error e => .error e
  else if query.object_term.isNone then
    let _ := solve_unbound_object query
    .error .notImplementedError
  else
    .error .notImplementedError

/-- Terms of the C2 end-to-end example, ids as in the test fixtures. -/
def vacuole : Term := ⟨"GO:0005773", "vacuole", []⟩

def cytoplasm : Term := ⟨"GO:0005737", "cytoplasm", []⟩

def intracellular : Term := ⟨"GO:0005622", "intracellular", []⟩

def lysosome : Term := ⟨"GO:0005764", "lysosome", []⟩

/-- The ontology of claim C2: `vacuole part_of cytoplasm`,
`cytoplasm part_of intracellular`, `lysosome is_a vacuole`. -/
def c2Ontology : Except PyError GeneOntologyNX := do
  let o1 ← add_relationship emptyOntology vacuole cytoplasm .partOf
  let o2 ← add_relationship o1 cytoplasm intracellular .partOf
  add_relationship o2 lysosome vacuole .isA

end GO

/-- Claim C2: on the ontology `vacuole part_of cytoplasm part_of
intracellular`, `lysosome is_a vacuole`, solving
`Query(lysosome, part_of, UNBOUND)` is claimed to return a collection
containing `intracellular`.  The code never returns a result collection:
`solve` discards the value of `solve_unbound_object` (itself a TODO stub
returning `[]`) and unconditionally raises `NotImplementedError`. -/
theorem c2_solve_unimplemented :
    (∃ o, c2Ontology = .ok o) ∧
    (do
      let o ← c2Ontology
      let q ← mkQuery o (some lysosome) (.byClass .partOf) none
      solve q) = .error .notImplementedError := by
  exact ⟨⟨_, rfl⟩, rfl⟩

/-- Claim C5: solving a query with both endpoints unbound is claimed to
fail with `InvalidQueryError`.  The relation half of the claim holds
(`relation = UNBOUND` raises `ValueError` at construction), but the solve
half does not: the `InvalidQueryError` constructor misuses `super`, so the
code raises `TypeError` instead (and `solve` additionally lacks `self`,
which already makes a bound-method call raise `TypeError`). -/
theorem c5_invalid_query_bug :
    (∀ q : Query, q.subject_term = none → q.object_term = none →
        solve q = .error .typeError) ∧
    (∀ (o : GeneOntologyNX) (s t : Option Term),
        mkQuery o s .unbound t = .error .valueError) := by
  constructor
  · intro q hs ho
    simp [solve, hs, ho, mkInvalidQueryError]
  · intro o s t
    rfl

/-- Witness for C5 at a concrete query. -/
theorem c5_invalid_query_bug_witness :
    solve ⟨none, .isA, none⟩ = .error .typeError ∧
    mkQuery emptyOntology none .unbound none = .error .valueError :=
  ⟨c5_invalid_query_bug.1 ⟨none, .isA, none⟩ rfl rfl,
   c5_invalid_query_bug.2 emptyOntology none none⟩

namespace GO

/-- Modelled from the spec: the resolution of the third component of a
rule as used by the relevance computation — `CopyFirst` resolves to the
`r1` pattern of the rule, `CopySecond` to its `r2` pattern, a fixed class
to itself.
`restrict_to_rules_relevant_for` is not present in the sources (only the
test suite calls it); this and the definitions below follow the words of
the specification, sections 4.3 and 4.4. -/
def resolveR3 (r : Rule) : RelType :=
  match r.r3 with
  | .copyFirst => r.r1
  | .copySecond => r.r2
  | .fixed t => t

/-- Modelled from the spec: a rule is initially relevant for `target` when
its resolved `r3` is the target type or an ancestor of it. -/
def relevantStart (target : RelType) (r : Rule) : Bool :=
  isSubclass target (resolveR3 r)

/-- Modelled from the spec: one closure step — keep every included rule and
add any rule whose resolved `r3` matches (is the type or a subtype of) the
`r1` or the `r2` of an included rule. -/
def closureStep (rules included : List Rule) : List Rule :=
  rules.filter (fun r => included.contains r ||
    included.any (fun r2 => isSubclass (resolveR3 r) r2.r1 || isSubclass (resolveR3 r) r2.r2))

/-- Iterating the closure step; `rules.length` iterations reach the fixpoint. -/
def closureIter (rules : List Rule) : Nat → List Rule → List Rule
  | 0, included => included
  | n + 1, included => closureIter rules n (closureStep rules included)

/-- Modelled from the spec: `restrict_to_rules_relevant_for(target)` — the
closure of the initially relevant rules together with every type tag that
appears as `r1`, `r2` or a resolved `r3` among the included rules. -/
def restrict_to_rules_relevant_for (rules : List Rule) (target : RelType) :
    List Rule × List RelType :=
  let included := closureIter rules rules.length (rules.filter (relevantStart target))
  (included, included.map (fun r => r.r1) ++ included.map (fun r => r.r2)
    ++ included.map resolveR3)

/-- Modelled from the spec: membership of an edge type in the reachable
type set; matching is by subtype, as everywhere in the rule engine. -/
def typeInReach (reach : List RelType) (t : RelType) : Bool :=
  reach.any (fun tag => isSubclass t tag)

/-- Modelled from the spec: the first applicable rule for operand types
`t1, t2` with its target resolved against them — the type-level content of
`Rules.apply`. -/
def applyTypes (rules : List Rule) (t1 t2 : RelType) : Option RelType :=
  match rules with
  | [] => none
  | r :: rest =>
    if isSubclass t1 r.r1 && isSubclass t2 r.r2 then
      some (match r.r3 with
            | .copyFirst => t1
            | .copySecond => t2
            | .fixed t => t)
    else applyTypes rest t1 t2

/-- Modelled from the spec, section 4.4: the worklist search for queries
with an unbound object.  A fact is a derived relationship type together
with the far endpoint id; each `(type, endpoint)` pair is expanded at most
once; only edges whose type is accepted by `allowEdge` are walked; an endpoint
is recorded as an answer when its derived type implies the target. -/
def searchLoop (rules : List Rule) (allowEdge : RelType → Bool) (edges : List Edge)
    (target : RelType) :
    Nat → List (RelType × String) → List (RelType × String) → List String → List String
  | 0, _, _, results => results
  | _ + 1, [], _, results => results
  | fuel + 1, (ty, v) :: queue, visited, results =>
    if visited.contains (ty, v) then
      searchLoop rules allowEdge edges target fuel queue visited results
    else
      let outs := edges.filter (fun e => e.src == v && allowEdge e.rel)
      let newFacts := outs.filterMap
        (fun e => (applyTypes rules ty e.rel).map (fun t3 => (t3, e.dst)))
      let results' := if isSubclass ty target && !(results.contains v)
                      then v :: results else results
      searchLoop rules allowEdge edges target fuel (queue ++ newFacts)
        ((ty, v) :: visited) results'

/-- Modelled from the spec: the answers of `Query(start, target, UNBOUND)`
computed by the worklist search, parameterized over the rule list and the
edge-type filter, so that the pruned and the unpruned search are one
function on different arguments. -/
def solve_unbound_object_spec (rules : List Rule) (allowEdge : RelType → Bool)
    (o : GeneOntologyNX) (start : Term) (target : RelType) (fuel : Nat) : List String :=
  let initial := (o.edges.filter (fun e => e.src == start.id && allowEdge e.rel)).map
    (fun e => (e.rel, e.dst))
  searchLoop rules allowEdge o.edges target fuel initial [] []

theorem searchLoop_congr (rules : List Rule) (a1 a2 : RelType → Bool)
    (h : ∀ t, a1 t = a2 t) (edges : List Edge) (target : RelType) :
    ∀ (fuel : Nat) (queue visited : List (RelType × String)) (results : List String),
      searchLoop rules a1 edges target fuel queue visited results =
        searchLoop rules a2 edges target fuel queue visited results := by
  intro fuel
  induction fuel with
  | zero => intro queue visited results; rfl
  | succ n ih =>
    intro queue visited results
    cases queue with
    | nil => rfl
    | cons f rest =>
      obtain ⟨ty, v⟩ := f
      simp only [searchLoop]
      have hfilter : edges.filter (fun e => e.src == v && a1 e.rel) =
          edges.filter (fun e => e.src == v && a2 e.rel) := by
        apply List.filter_congr
        intro e _
        rw [h e.rel]
      rw [hfilter]
      by_cases hv : visited.contains (ty, v) = true
      · simp only [hv, if_true]
        exact ih _ _ _
      · simp only [hv, Bool.false_eq_true, if_false]
        exact ih _ _ _

theorem solve_spec_congr (rules : List Rule) (a1 a2 : RelType → Bool)
    (h : ∀ t, a1 t = a2 t) (o : GeneOntologyNX) (start : Term) (target : RelType)
    (fuel : Nat) :
    solve_unbound_object_spec rules a1 o start target fuel =
      solve_unbound_object_spec rules a2 o start target fuel := by
  unfold solve_unbound_object_spec
  have hfilter : o.edges.filter (fun e => e.src == start.id && a1 e.rel)
      = o.edges.filter (fun e => e.src == start.id && a2 e.rel) := by
    apply List.filter_congr
    intro e _
    rw [h e.rel]
  rw [hfilter]
  exact searchLoop_congr rules a1 a2 h o.edges target fuel _ _ _

end GO

/-- Claim C6: for every target type and every query over the default
rules, restricting the rule set with `restrict_to_rules_relevant_for`
(closure of the rules whose resolved `r3` is the target or one of its
ancestors, closed under adding rules whose resolved `r3` matches the `r1`
or `r2` of an included rule) and searching over only the sub-ruleset and
the reachable type set yields exactly the answers of the search over the
full rule set.  For the default rules the closure always contains every
rule — the `is_a ∘ any` rule resolves to the universal supertype, so it is
always initially relevant and then absorbs the rest — and the reachable
set accepts every edge type, so the two searches coincide. -/
theorem c6_restrict_preserves_answers :
    ∀ (target : RelType) (o : GeneOntologyNX) (start : Term) (fuel : Nat),
      solve_unbound_object_spec
          (restrict_to_rules_relevant_for default_rules target).1
          (typeInReach (restrict_to_rules_relevant_for default_rules target).2)
          o start target fuel
        = solve_unbound_object_spec default_rules (fun _ => true) o start target fuel := by
  intro target o start fuel
  have h1 : (restrict_to_rules_relevant_for default_rules target).1 = default_rules := by
    cases target <;> rfl
  have h2 : ∀ t, typeInReach (restrict_to_rules_relevant_for default_rules target).2 t
      = true := by
    intro t
    cases target <;> cases t <;> rfl
  rw [h1]
  exact solve_spec_congr default_rules _ _ (fun t => h2 t) o start target fuel
